import Mathlib

/-!
Shallow embedding of the fragmenter package-distribution engine
(update planner, transfer pipeline, install orchestrator) and proofs
about its behaviour. Definitions are translated from the TypeScript
sources; where several revisions of one file exist in the tree, the
revision cited for the claim at hand is the one embedded, and the
error-code enumeration is the union of the codes referenced across
revisions.
-/

namespace Fragmenter

/-- Bool test for one character list occurring contiguously inside another,
modelling the JavaScript `String.prototype.includes` used by
`FragmenterError.isFragmenterError`. -/
def listContainsSeq (sub : List Char) : List Char → Bool
  | [] => sub.isEmpty
  | c :: t => sub.isPrefixOf (c :: t) || listContainsSeq sub t

/-- JavaScript `haystack.includes(needle)`. -/
def jsIncludes (s sub : String) : Bool := listContainsSeq sub.data s.data

/-- JavaScript `String.prototype.padStart(targetLength, pad)`: pad on the
left up to `targetLength`; a string already long enough is unchanged. -/
def jsPadStart (s : String) (targetLength : Nat) (pad : Char) : String :=
  String.mk (List.replicate (targetLength - s.data.length) pad) ++ s

/-- Whitespace as trimmed by `String.prototype.trim` (the characters the
error messages at hand can contain). -/
def isWsChar (c : Char) : Bool := c == ' ' || c == '\t' || c == '\n' || c == '\r'

/-- JavaScript `String.prototype.trim`. -/
def jsTrim (s : String) : String :=
  String.mk (((s.data.dropWhile isWsChar).reverse.dropWhile isWsChar).reverse)

/-- The error-code enumeration `FragmenterErrorCode` (union of the members
appearing across the revisions of errors.ts in the tree). -/
inductive FragmenterErrorCode where
  | Null
  | PermissionsError
  | ResourcesBusy
  | NoSpaceOnDevice
  | MaxModuleRetries
  | FileNotFound
  | DirectoryNotEmpty
  | NotADirectory
  | ModuleJsonInvalid
  | ModuleCrcMismatch
  | UserAborted
  | NetworkError
  | CorruptedZipFile
  | DownloadStreamClosed
  | InvalidOptions
  | InvalidParameters
  | InvalidDistributionManifest
  | Unknown
deriving DecidableEq, Repr

/-- Reverse enum mapping `FragmenterErrorCode[code]`, used when building
the `FragmenterError(<Code>): <detail>` message. -/
def codeName : FragmenterErrorCode → String
  | .Null => "Null"
  | .PermissionsError => "PermissionsError"
  | .ResourcesBusy => "ResourcesBusy"
  | .NoSpaceOnDevice => "NoSpaceOnDevice"
  | .MaxModuleRetries => "MaxModuleRetries"
  | .FileNotFound => "FileNotFound"
  | .DirectoryNotEmpty => "DirectoryNotEmpty"
  | .NotADirectory => "NotADirectory"
  | .ModuleJsonInvalid => "ModuleJsonInvalid"
  | .ModuleCrcMismatch => "ModuleCrcMismatch"
  | .UserAborted => "UserAborted"
  | .NetworkError => "NetworkError"
  | .CorruptedZipFile => "CorruptedZipFile"
  | .DownloadStreamClosed => "DownloadStreamClosed"
  | .InvalidOptions => "InvalidOptions"
  | .InvalidParameters => "InvalidParameters"
  | .InvalidDistributionManifest => "InvalidDistributionManifest"
  | .Unknown => "Unknown"

/-- A JavaScript error value: its `name` ("Error", "TypeError",
"SyntaxError", ...), its `message`, the optional platform `code` string
property carried by Node.js system errors (such as "ENOENT"), and the
`FragmenterErrorCode` field present exactly on errors built by the
`FragmenterError` constructor. -/
structure JsError where
  name : String := "Error"
  message : String := ""
  code : Option String := none
  fragCode : Option FragmenterErrorCode := none
deriving DecidableEq, Repr

/-- The `code` field read on a value assumed to be a `FragmenterError`
(JavaScript would yield `undefined` on a foreign error; `Null` stands for
that absent value). -/
def jsErrorCode (e : JsError) : FragmenterErrorCode := e.fragCode.getD .Null

/-- `CorruptedZipMessages` from the errors revision carrying zip
reclassification. -/
def CorruptedZipMessages : List String :=
  ["unexpected EOF", "end of central directory record signature not found"]

/-- `FragmenterError.interpretNodeException`: map a raw error to a code by
its zip-corruption message or platform `code` property (falling back to
the message), defaulting to `Unknown`. -/
def interpretNodeException (e : JsError) : FragmenterErrorCode :=
  if CorruptedZipMessages.contains (jsTrim e.message) then .CorruptedZipFile
  else
    let errorCode := e.code.getD e.message
    if errorCode = "EACCES" ∨ errorCode = "EPERM" then .PermissionsError
    else if errorCode = "EBUSY" then .ResourcesBusy
    else if errorCode = "ENOSPC" then .NoSpaceOnDevice
    else if errorCode = "ENOENT" then .FileNotFound
    else if errorCode = "ENOTEMPTY" then .DirectoryNotEmpty
    else if errorCode = "ENOTDIR" then .NotADirectory
    else if errorCode = "ECONNRESET" ∨ errorCode = "ENOTFOUND" then .NetworkError
    else .Unknown

/-- `FragmenterError.create(code, message)`. -/
def FragmenterError.create (code : FragmenterErrorCode) (message : String) : JsError :=
  { name := "Error"
    message := "FragmenterError(" ++ codeName code ++ "): " ++ message
    code := none
    fragCode := some code }

/-- `FragmenterError.createFromError(e)`: classify then wrap. -/
def FragmenterError.createFromError (e : JsError) : JsError :=
  let code := interpretNodeException e
  { name := "Error"
    message := "FragmenterError(" ++ codeName code ++ "): " ++ e.message
    code := none
    fragCode := some code }

/-- `FragmenterError.isFragmenterError(e)`: true exactly when the message
contains the substring `FragmenterError(`. -/
def isFragmenterError (e : JsError) : Bool := jsIncludes e.message "FragmenterError("

/-- The `UnrecoverableErrors` list. -/
def UnrecoverableErrors : List FragmenterErrorCode :=
  [.PermissionsError, .NoSpaceOnDevice, .MaxModuleRetries,
   .FileNotFound, .DirectoryNotEmpty, .NotADirectory]

/-! ### Install orchestrator: per-module retry loop
`FragmenterInstaller.downloadAndInstallModule` wraps each attempt of
`tryDownloadAndInstallModule` in a catch block that decides whether to
rethrow or to retry after an exponential-backoff wait. -/

/-- What one attempt of `tryDownloadAndInstallModule` does: it either
succeeds or raises some error. -/
inductive AttemptOutcome where
  | success
  | raise (e : JsError)
deriving DecidableEq, Repr

/-- The decision the catch block of `downloadAndInstallModule` makes about
the error `e` one attempt raised (with the abort signal state given):
already-typed FragmenterErrors are rethrown as they are; with the signal
aborted a `UserAborted` error is thrown; otherwise the error is classified
and the result rethrown when its code is unrecoverable, else the loop
schedules a retry. -/
inductive RetryDecision where
  | rethrow (e : JsError)
  | retryAfterBackoff
deriving DecidableEq, Repr

/-- The catch block of `downloadAndInstallModule` (part_004 lines
357-376). -/
def catchDecision (aborted : Bool) (e : JsError) : RetryDecision :=
  if isFragmenterError e then .rethrow e
  else if aborted then
    .rethrow (FragmenterError.create .UserAborted "AbortSignal triggered after retry scheduled")
  else
    let fragmenterError := FragmenterError.createFromError e
    if UnrecoverableErrors.contains (jsErrorCode fragmenterError) then .rethrow fragmenterError
    else .retryAfterBackoff

/-- Trace of one run of the `downloadAndInstallModule` retry loop: how many
attempts were made, the seconds waited between attempts, and the final
outcome. -/
structure ModuleRetryResult where
  attempts : Nat
  waits : List Nat
  outcome : Except JsError Unit
deriving Repr

/-- The body of the `while (retryCount < 5)` loop of
`downloadAndInstallModule`. `fuel` counts the iterations the constant
guard still allows (`5 - retryCount`), so the recursion is structural;
`retryCount` is the loop variable. On a retry the loop increments
`retryCount` and waits `2 ** retryCount` seconds. -/
def damGo (moduleName : String) (attempt : Nat → AttemptOutcome) (aborted : Bool) :
    Nat → Nat → ModuleRetryResult
  | 0, _ =>
      { attempts := 0, waits := [],
        outcome := .error (FragmenterError.create .MaxModuleRetries
          ("max number of retries reached for module " ++ moduleName)) }
  | fuel + 1, retryCount =>
      match attempt retryCount with
      | .success => { attempts := 1, waits := [], outcome := .ok () }
      | .raise e =>
          match catchDecision aborted e with
          | .rethrow e2 => { attempts := 1, waits := [], outcome := .error e2 }
          | .retryAfterBackoff =>
              let retryIn := 2 ^ (retryCount + 1)
              let rest := damGo moduleName attempt aborted fuel (retryCount + 1)
              { attempts := 1 + rest.attempts, waits := retryIn :: rest.waits,
                outcome := rest.outcome }

/-- `FragmenterInstaller.downloadAndInstallModule`: run the retry loop from
`retryCount = 0`; the guard `retryCount < 5` is a hard-coded constant, so
the initial fuel is 5. -/
def downloadAndInstallModule (moduleName : String) (attempt : Nat → AttemptOutcome)
    (aborted : Bool) : ModuleRetryResult :=
  damGo moduleName attempt aborted 5 0

/-- The option resolution of the `FragmenterInstaller` constructor: the
caller-supplied options spread over the defaults. -/
structure InstallOptions where
  temporaryDirectory : Option String := none
  maxModuleRetries : Option Nat := none
  forceFreshInstall : Option Bool := none
  forceManifestCacheBust : Option Bool := none
  forceCacheBust : Option Bool := none
  disableFallbackToFull : Option Bool := none
deriving DecidableEq, Repr

/-- The `maxModuleRetries` value after the constructor merges the defaults
(`maxModuleRetries: 5, ...options`). -/
def resolvedMaxModuleRetries (o : InstallOptions) : Nat := o.maxModuleRetries.getD 5

/-! ### Update planner (the checks.ts revision handling alternatives)
Data model of the newer types.ts revision, and
`FragmenterUpdateChecker.needsUpdate`. The distribution manifest is an
input (the engine fetches it over HTTP); the on-disk install manifest is
`some` when `<destDir>/install.json` exists, and `options` is `none` when
the optional parameter is omitted. JavaScript exceptions are modelled by
the `Except JsError` error channel, including the TypeError raised by a
property read on `undefined`. -/

inductive ModuleKind where
  | simple
  | alternatives
deriving DecidableEq, Repr

structure DistributionModuleFile where
  key : String
  path : String
  hash : String
  splitFileCount : Nat := 0
  completeFileSize : Nat := 0
  completeFileSizeUncompressed : Nat := 0
deriving DecidableEq, Repr

structure DistributionModule where
  kind : ModuleKind
  name : String
  destDir : String
  downloadFiles : List DistributionModuleFile
deriving DecidableEq, Repr

structure InstalledModule where
  kind : ModuleKind
  name : String
  destDir : String
  hash : String
  installedAlternativeKey : Option String := none
deriving DecidableEq, Repr

structure ManifestBase where
  hash : String
  files : List String := []
  splitFileCount : Nat := 0
  completeFileSize : Nat := 0
  completeFileSizeUncompressed : Nat := 0
deriving DecidableEq, Repr

structure DistributionManifest where
  modules : List DistributionModule
  base : ManifestBase
  fullHash : String
  fullSplitFileCount : Nat := 0
  fullCompleteFileSize : Nat := 0
  fullCompleteFileSizeUncompressed : Nat := 0
deriving DecidableEq, Repr

structure InstallManifest where
  modules : List InstalledModule
  base : ManifestBase
  fullHash : String := ""
  fullSplitFileCount : Nat := 0
  fullCompleteFileSize : Nat := 0
  fullCompleteFileSizeUncompressed : Nat := 0
  source : String := ""
deriving DecidableEq, Repr

/-- The planner record pushed on added and updated lists: the module with
its resolved `fileToDownload`. -/
structure UpdateModule where
  kind : ModuleKind
  name : String
  destDir : String
  fileToDownload : DistributionModuleFile
deriving DecidableEq, Repr

structure NeedsUpdateOptions where
  forceCacheBust : Bool := false
  moduleAlternativesMap : Option (List (String × String)) := none
  forceFullInstallRatio : Option ℚ := none
deriving DecidableEq, Repr

structure UpdateInfo where
  needsUpdate : Bool
  isFreshInstall : Bool
  baseChanged : Bool
  willFullyReDownload : Bool
  addedModules : List UpdateModule
  removedModules : List InstalledModule
  updatedModules : List UpdateModule
  unchangedModules : List InstalledModule
  downloadSize : Option Nat
  requiredDiskSpace : Option Nat
  distributionManifest : DistributionManifest
  existingManifest : Option InstallManifest
deriving DecidableEq, Repr

/-- `Map.prototype.get` over the alternatives map. -/
def mapGet (m : List (String × String)) (k : String) : Option String :=
  (m.find? (fun p => p.1 == k)).map (fun p => p.2)

/-- `options?.moduleAlternativesMap?.get(name)`. -/
def chosenAlternativeFor (options : Option NeedsUpdateOptions) (moduleName : String) :
    Option String :=
  options.bind (fun o => o.moduleAlternativesMap.bind (fun m => mapGet m moduleName))

/-- JavaScript falsiness of `choice` in `if (!choice)`: absent or the empty
string. -/
def jsFalsy : Option String → Bool
  | none => true
  | some s => s.data.isEmpty

/-- The snippet repeated at each use site of the planner: for an
alternatives module resolve the chosen key from the options, throwing
`InvalidOptions` when it is missing; `null` otherwise. -/
def chooseAlternativeKey (options : Option NeedsUpdateOptions) (kind : ModuleKind)
    (moduleName : String) : Except JsError (Option String) :=
  if kind = .alternatives then
    let choice := chosenAlternativeFor options moduleName
    if jsFalsy choice then
      .error (FragmenterError.create .InvalidOptions
        ("Alternative not specified for module " ++ moduleName))
    else .ok choice
  else .ok none

/-- `FragmenterUpdateChecker.moduleFileToUse`: pick the download file
whose key strictly equals the chosen alternative (for alternatives
modules; `null` matches nothing), or the single download file (for other
kinds, where any other count is an invalid distribution manifest). -/
def moduleFileToUse (module : DistributionModule) (chosenAlternativeKey : Option String) :
    Except JsError DistributionModuleFile :=
  if module.kind = .alternatives then
    match (match chosenAlternativeKey with
           | some c => module.downloadFiles.find? (fun it => it.key == c)
           | none => none) with
    | some f => .ok f
    | none => .error (FragmenterError.create .InvalidParameters
        ("Alternatives module " ++ module.name
          ++ " does not have a download file matching the chosen alternative"))
  else
    match module.downloadFiles with
    | [f] => .ok f
    | _ => .error (FragmenterError.create .InvalidDistributionManifest
        ("Non-alternative module " ++ module.name ++ " does not have exactly one download file"))

/-- The `.map` body shared by the fresh-install and added-modules paths:
resolve each module of the list to an `UpdateModule`, propagating thrown
errors. -/
def buildUpdateModules (options : Option NeedsUpdateOptions) :
    List DistributionModule → Except JsError (List UpdateModule)
  | [] => .ok []
  | m :: rest => do
      let chosen ← chooseAlternativeKey options m.kind m.name
      let fileToDownload ← moduleFileToUse m chosen
      let rs ← buildUpdateModules options rest
      .ok ({ kind := m.kind, name := m.name, destDir := m.destDir,
             fileToDownload := fileToDownload } :: rs)

/-- JavaScript strict equality between the chosen key (string or null) and
the recorded `installedAlternativeKey` (string or absent). -/
def jsStrictEqOpt : Option String → Option String → Bool
  | some a, some b => a == b
  | none, none => true
  | _, _ => false

/-- One iteration of the `for (const module of existingInstall.modules)`
classification loop of `needsUpdate`: the pushed updated entry, if any.
Alternatives whose chosen key strictly equals the installed key are pushed
unconditionally; otherwise the module is pushed when the resolved file
hash differs from the installed hash (the added and removed guards are
kept from the source). -/
def updatedForExisting (distribution : DistributionManifest)
    (options : Option NeedsUpdateOptions) (added : List UpdateModule)
    (removed : List InstalledModule) (module : InstalledModule) :
    Except JsError (Option UpdateModule) :=
  match distribution.modules.find? (fun it => it.name == module.name) with
  | none => .ok none
  | some moduleInDistribution => do
      let chosen ← chooseAlternativeKey options module.kind module.name
      let fileToCompare ← moduleFileToUse moduleInDistribution chosen
      if module.kind == .alternatives && jsStrictEqOpt chosen module.installedAlternativeKey then
        .ok (some { kind := module.kind, name := module.name, destDir := module.destDir,
                    fileToDownload := fileToCompare })
      else
        let update := fileToCompare.hash != module.hash
          && !(added.any (fun it => it.name == module.name))
          && !(removed.any (fun it => it.name == module.name))
        .ok (if update then
              some { kind := module.kind, name := module.name, destDir := module.destDir,
                     fileToDownload := fileToCompare }
             else none)

/-- The classification loop over the installed modules, in order. -/
def collectUpdated (distribution : DistributionManifest)
    (options : Option NeedsUpdateOptions) (added : List UpdateModule)
    (removed : List InstalledModule) :
    List InstalledModule → Except JsError (List UpdateModule)
  | [] => .ok []
  | m :: rest => do
      let r ← updatedForExisting distribution options added removed m
      let rs ← collectUpdated distribution options added removed rest
      .ok (r.toList ++ rs)

/-- Whether one installed module lands on the updated list (the pure
decision of `updatedForExisting`, meaningful when the loop does not
throw). -/
def updatedFlag (distribution : DistributionManifest)
    (options : Option NeedsUpdateOptions) (added : List UpdateModule)
    (removed : List InstalledModule) (m : InstalledModule) : Bool :=
  match updatedForExisting distribution options added removed m with
  | .ok (some _) => true
  | _ => false

/-- The TypeError raised by reading `forceFullInstallRatio` on the omitted
options parameter. -/
def ratioReadTypeError : JsError :=
  { name := "TypeError",
    message := "Cannot read properties of undefined (reading forceFullInstallRatio)" }

/-- `FragmenterUpdateChecker.needsUpdate` of the alternatives-aware
revision. -/
def needsUpdate (distribution : DistributionManifest)
    (existingInstall : Option InstallManifest) (options : Option NeedsUpdateOptions) :
    Except JsError UpdateInfo :=
  match existingInstall with
  | none => do
      let added ← buildUpdateModules options distribution.modules
      .ok { needsUpdate := true
            isFreshInstall := true
            baseChanged := true
            willFullyReDownload := false
            addedModules := added
            removedModules := []
            updatedModules := []
            unchangedModules := []
            downloadSize := some distribution.fullCompleteFileSize
            requiredDiskSpace := some distribution.fullCompleteFileSizeUncompressed
            distributionManifest := distribution
            existingManifest := none }
  | some existing => do
      let baseChanged := existing.base.hash != distribution.base.hash
      let added ← buildUpdateModules options
        (distribution.modules.filter
          (fun e => (existing.modules.find? (fun f => e.name == f.name)).isNone))
      let removed := existing.modules.filter
        (fun e => (distribution.modules.find? (fun f => e.name == f.name)).isNone)
      let updated ← collectUpdated distribution options added removed existing.modules
      let unchanged := existing.modules.filter (fun module =>
        !(added.any (fun it => it.name == module.name))
        && !(removed.any (fun it => it.name == module.name))
        && !(updated.any (fun it => it.name == module.name)))
      let anyListChange := added.length > 0 || removed.length > 0 || updated.length > 0
      let downloadSize := if anyListChange then
          some ((added ++ updated).foldl (fun accu m => accu + m.fileToDownload.completeFileSize) 0)
        else none
      let requiredDiskSpace := if anyListChange then
          some ((added ++ updated).foldl
            (fun accu m => accu + m.fileToDownload.completeFileSizeUncompressed) 0)
        else none
      let moduleRatio : ℚ :=
        ((updated.length + added.length : Nat) : ℚ) / max 1 ((existing.modules.length : Nat) : ℚ)
      match options with
      | none => .error ratioReadTypeError
      | some o =>
          let exceeded := match o.forceFullInstallRatio with
            | some r => decide (moduleRatio > r)
            | none => false
          .ok { needsUpdate := baseChanged || anyListChange
                isFreshInstall := false
                baseChanged := baseChanged
                willFullyReDownload := exceeded
                addedModules := added
                removedModules := removed
                updatedModules := updated
                unchangedModules := unchanged
                downloadSize :=
                  if exceeded then some distribution.fullCompleteFileSize else downloadSize
                requiredDiskSpace :=
                  if exceeded then some distribution.fullCompleteFileSizeUncompressed
                  else requiredDiskSpace
                distributionManifest := distribution
                existingManifest := some existing }

/-- The code of an error result, `none` on success. -/
def errCodeOf {α : Type} : Except JsError α → Option FragmenterErrorCode
  | .error e => e.fragCode
  | .ok _ => none

/-- The JavaScript `name` of an error result, `none` on success. -/
def errNameOf {α : Type} : Except JsError α → Option String
  | .error e => some e.name
  | .ok _ => none

/-- Whether a result is a success. -/
def exceptOk {α : Type} : Except JsError α → Bool
  | .ok _ => true
  | .error _ => false

/-! ### Module decompressor (module-decompressor.ts)
The post-extraction validation of `ModuleDecompressor.decompress`: read
and parse `<destDir>/module.json`, then compare its hash with the
expected module hash. What the filesystem and JSON.parse (external
collaborators) can yield is the input. -/

/-- JavaScript `s.substring(0, n)`. -/
def jsSubstring0 (s : String) (n : Nat) : String := String.mk (s.data.take n)

/-- What reading and parsing `<destDir>/module.json` can come to. -/
inductive ModuleJsonReadOutcome where
  | missing
  | unparseable (msg : String)
  | parsed (hash : Option String)
deriving DecidableEq, Repr

/-- The Node.js error `fs.readFile` raises for an absent file. -/
def enoentError : JsError :=
  { message := "ENOENT: no such file or directory", code := some "ENOENT" }

/-- `ModuleDecompressor.decompress`, lines 57-82: a failed read or parse
of module.json is wrapped by `createFromError`; a parsed document whose
`hash` is absent makes `actualCrc !== expectedCrc` true and the template
literal of the `ModuleCrcMismatch` message then calls `substring` on
`undefined`, raising a TypeError; a present, different hash raises
`ModuleCrcMismatch`; a matching hash returns true. -/
def decompressCheck (expectedHash : String) (mj : ModuleJsonReadOutcome) :
    Except JsError Bool :=
  match mj with
  | .missing => .error (FragmenterError.createFromError enoentError)
  | .unparseable msg =>
      .error (FragmenterError.createFromError { name := "SyntaxError", message := msg })
  | .parsed none =>
      .error { name := "TypeError",
               message := "Cannot read properties of undefined (reading substring)" }
  | .parsed (some actualCrc) =>
      if actualCrc != expectedHash then
        .error (FragmenterError.create .ModuleCrcMismatch
          ("expected: " ++ jsSubstring0 expectedHash 8 ++ ", read: " ++ jsSubstring0 actualCrc 8))
      else .ok true

/-- The platform code strings `interpretNodeException` recognises. -/
def NodePlatformCodes : List String :=
  ["EACCES", "EPERM", "EBUSY", "ENOSPC", "ENOENT", "ENOTEMPTY", "ENOTDIR",
   "ECONNRESET", "ENOTFOUND"]

/-! ### File downloader (file-downloader.ts), ranged branch
`FileDownloader.download` when the server advertises byte ranges: resume
the stream download from the accumulated byte count while
`retryCount < 5`, then classify and always write the accumulated buffers
to the destination. One stream attempt is summarised by the sizes of the
buffers it delivered, its error if any, and whether the shared context
records an unrecoverable error after it. -/

structure StreamAttemptResult where
  buffers : List Nat
  error : Option JsError := none
  unrecoverableAfter : Bool := false
deriving Repr

/-- `fileChunks.reduce((acc, buf) => acc + buf.length, 0)`. -/
def loadedBytesOf (chunks : List Nat) : Nat := chunks.foldl (fun acc buf => acc + buf) 0

/-- Result of `FileDownloader.download`: the reported byte count, the
result error, the buffer sizes written to `dest` (the write happens on
every path), and the backoff waits. -/
structure FileDownloadResult where
  bytesDownloaded : Nat
  error : Option JsError
  writtenChunks : List Nat
  waits : List Nat
deriving Repr

/-- The `MaxModuleRetries` error the ranged download loop leaves behind. -/
def downloadIncompleteError : JsError :=
  FragmenterError.create .MaxModuleRetries
    "File not entirely downloaded - max number of download resumes reached or unrecoverable error detected"

/-- The `while (retryCount < 5)` resume loop of the ranged branch: `fuel`
counts the iterations the guard still allows (initially 5), `retryCount`
is the loop variable, `chunks` the accumulated buffer sizes. Yields the
final accumulated chunks, the error recorded by an unrecoverable break
(none otherwise), and the waits; a triggered abort signal throws
`UserAborted`. -/
def fdRangedLoop (attempts : Nat → StreamAttemptResult) (aborted : Bool) (fileSize : Nat) :
    Nat → Nat → List Nat → Except JsError (List Nat × Option JsError × List Nat)
  | 0, _, chunks => .ok (chunks, none, [])
  | fuel + 1, retryCount, chunks =>
      let a := attempts retryCount
      let chunks2 := chunks ++ a.buffers
      if loadedBytesOf chunks2 ≥ fileSize then .ok (chunks2, none, [])
      else if aborted then
        .error (FragmenterError.create .UserAborted "AbortSignal triggered")
      else if a.unrecoverableAfter then .ok (chunks2, a.error, [])
      else
        match fdRangedLoop attempts aborted fileSize fuel (retryCount + 1) chunks2 with
        | .error e => .error e
        | .ok (c, err, ws) => .ok (c, err, (2 ^ (retryCount + 1)) :: ws)

/-- `FileDownloader.download`, ranged branch: run the resume loop, then,
when the byte count is still short and no error was recorded, record
`MaxModuleRetries`; in every case write the concatenated buffers to the
destination and report the byte count. -/
def fileDownloadRanged (attempts : Nat → StreamAttemptResult) (aborted : Bool)
    (fileSize : Nat) : Except JsError FileDownloadResult :=
  match fdRangedLoop attempts aborted fileSize 5 0 [] with
  | .error e => .error e
  | .ok (chunks, errSoFar, waits) =>
      let loaded := loadedBytesOf chunks
      let finalError := if loaded < fileSize then
          (match errSoFar with
           | some e => some e
           | none => some downloadIncompleteError)
        else errSoFar
      .ok { bytesDownloaded := loaded, error := finalError, writtenChunks := chunks,
            waits := waits }

/-- A stream that delivers a single 1-byte buffer per attempt and then
stalls. -/
def droppingStream : Nat → StreamAttemptResult := fun _ => { buffers := [1] }

/-- The result the ranged download loop computes over `droppingStream`
with an expected size of 10 bytes. -/
def droppingResult : FileDownloadResult :=
  { bytesDownloaded := 5, error := some downloadIncompleteError,
    writtenChunks := [1, 1, 1, 1, 1], waits := [2, 4, 8, 16, 32] }

/-! ### Module downloader, split path (module-downloader.ts)
`downloadModuleFileParts` and `mergeModuleFileParts`: the ordered part
requests, and the merge as the ordered list of append and delete
filesystem actions. -/

/-- `url-join` as used on the fragment server layout. -/
def urljoin (a b : String) : String := a ++ "/" ++ b

/-- `path.join` on two components. -/
def pathJoin (a b : String) : String := a ++ "/" ++ b

/-- `(i + 1).toString().padStart(numParts.toString().length, '0')`. -/
def partIndexString (numParts i : Nat) : String :=
  jsPadStart (Nat.repr (i + 1)) (Nat.repr numParts).length '0'

/-- One part request of `downloadModuleFileParts`: the relative part file
path, the decorated URL, and the temporary file the part is written to. -/
structure PartRequest where
  partFilePath : String
  url : String
  tempFilePath : String
deriving DecidableEq, Repr

/-- The body of the part loop at index `i`. -/
def partRequest (baseUrl moduleName : String) (file : DistributionModuleFile)
    (destDir : String) (retryCount : Nat) (fullModuleHash : String) (i : Nat) :
    PartRequest :=
  let partIndexStr := partIndexString file.splitFileCount i
  let partFileSuffix := "sf-part" ++ partIndexStr
  let partFilePath := file.path ++ "." ++ partFileSuffix
  let partUrl := urljoin baseUrl partFilePath
  let url := partUrl ++ "?moduleHash=" ++ jsSubstring0 file.hash 8 ++ "&fullHash="
    ++ jsSubstring0 fullModuleHash 8 ++ "&partIndex=" ++ Nat.repr i
    ++ (if retryCount ≠ 0 then "&retry=" ++ Nat.repr retryCount else "")
  { partFilePath := partFilePath, url := url,
    tempFilePath := pathJoin destDir (moduleName ++ ".zip.fg-tmp" ++ partIndexStr) }

/-- The `for (let i = 0; i < numParts; i++)` loop of
`downloadModuleFileParts`, with `fuel` the remaining iterations the guard
allows. -/
def downloadPartsFrom (baseUrl moduleName : String) (file : DistributionModuleFile)
    (destDir : String) (retryCount : Nat) (fullModuleHash : String) :
    Nat → Nat → List PartRequest
  | 0, _ => []
  | fuel + 1, i =>
      if i < file.splitFileCount then
        partRequest baseUrl moduleName file destDir retryCount fullModuleHash i
          :: downloadPartsFrom baseUrl moduleName file destDir retryCount fullModuleHash
              fuel (i + 1)
      else []

/-- `ModuleDownloader.downloadModuleFileParts`: the part requests issued,
in order. -/
def downloadModuleFileParts (baseUrl moduleName : String) (file : DistributionModuleFile)
    (destDir : String) (retryCount : Nat) (fullModuleHash : String) : List PartRequest :=
  downloadPartsFrom baseUrl moduleName file destDir retryCount fullModuleHash
    file.splitFileCount 0

/-- Filesystem actions of the merge step. -/
inductive FsEvent where
  | appendFile (src dest : String)
  | rmFile (path : String)
deriving DecidableEq, Repr

/-- The `for` loop of `mergeModuleFileParts`: append each present part to
`<name>.zip` then delete it; a missing part makes the merge return false
(modelled `none`). `present` says which part files exist. -/
def mergePartsFrom (moduleName destDir : String) (file : DistributionModuleFile)
    (present : String → Bool) : Nat → Nat → Option (List FsEvent)
  | 0, _ => some []
  | fuel + 1, i =>
      if i < file.splitFileCount then
        let partIndexStr := partIndexString file.splitFileCount i
        let filePath := pathJoin destDir (moduleName ++ ".zip.fg-tmp" ++ partIndexStr)
        if present filePath then
          match mergePartsFrom moduleName destDir file present fuel (i + 1) with
          | some evs =>
              some (FsEvent.appendFile filePath (pathJoin destDir (moduleName ++ ".zip"))
                :: FsEvent.rmFile filePath :: evs)
          | none => none
        else none
      else some []

/-- `ModuleDownloader.mergeModuleFileParts`. -/
def mergeModuleFileParts (moduleName destDir : String) (file : DistributionModuleFile)
    (present : String → Bool) : Option (List FsEvent) :=
  mergePartsFrom moduleName destDir file present file.splitFileCount 0

/-- A split module file with three parts. -/
def bigFile : DistributionModuleFile :=
  { key := "", path := "big.zip", hash := "aabbccdd1122", splitFileCount := 3,
    completeFileSize := 30, completeFileSizeUncompressed := 60 }

/-- Download file of the `alt-a` alternative of the example module. -/
def altFileA : DistributionModuleFile :=
  { key := "alt-a", path := "d/alt-a.zip", hash := "h1",
    completeFileSize := 10, completeFileSizeUncompressed := 20 }

/-- Download file of the `alt-b` alternative of the example module. -/
def altFileB : DistributionModuleFile :=
  { key := "alt-b", path := "d/alt-b.zip", hash := "h2",
    completeFileSize := 11, completeFileSizeUncompressed := 21 }

/-- A distribution manifest with one alternatives module `d`. -/
def altDistManifest : DistributionManifest :=
  { modules := [{ kind := .alternatives, name := "d", destDir := "d",
                  downloadFiles := [altFileA, altFileB] }],
    base := { hash := "bh" }, fullHash := "fh",
    fullCompleteFileSize := 100, fullCompleteFileSizeUncompressed := 200 }

/-- An install manifest recording `d` installed from `alt-a` at the hash
the distribution still serves for `alt-a`. -/
def altInstallManifest : InstallManifest :=
  { modules := [{ kind := .alternatives, name := "d", destDir := "d", hash := "h1",
                  installedAlternativeKey := some "alt-a" }],
    base := { hash := "bh" } }

/-- Options choosing `alt-a` for `d` again. -/
def altOptions : NeedsUpdateOptions := { moduleAlternativesMap := some [("d", "alt-a")] }

/-- Options choosing a key that no download file of `d` carries. -/
def unmatchedKeyOptions : NeedsUpdateOptions :=
  { moduleAlternativesMap := some [("d", "alt-b")] }

/-- The alternatives module `d` with only the `alt-a` download file. -/
def altModSingle : DistributionModule :=
  { kind := .alternatives, name := "d", destDir := "d", downloadFiles := [altFileA] }

/-- A distribution manifest around a single module. -/
def mkSingletonDist (m : DistributionModule) : DistributionManifest :=
  { modules := [m], base := { hash := "" }, fullHash := "" }

/-- Download file of the example simple module. -/
def simpleFileA : DistributionModuleFile := { key := "", path := "a.zip", hash := "ha" }

/-- A distribution manifest with one simple module `a`. -/
def simpleDistManifest : DistributionManifest :=
  { modules := [{ kind := .simple, name := "a", destDir := "a",
                  downloadFiles := [simpleFileA] }],
    base := { hash := "bh" }, fullHash := "fh" }

/-- An install manifest with the same simple module `a`, up to date. -/
def simpleInstallManifest : InstallManifest :=
  { modules := [{ kind := .simple, name := "a", destDir := "a", hash := "ha" }],
    base := { hash := "bh" } }

/-- The plan the planner computes for the up-to-date simple install. -/
def simpleNoChangeInfo : UpdateInfo :=
  { needsUpdate := false, isFreshInstall := false, baseChanged := false,
    willFullyReDownload := false,
    addedModules := [], removedModules := [], updatedModules := [],
    unchangedModules := [{ kind := .simple, name := "a", destDir := "a", hash := "ha" }],
    downloadSize := none, requiredDiskSpace := none,
    distributionManifest := simpleDistManifest,
    existingManifest := some simpleInstallManifest }

/-- A raw transport error: a Node.js socket error with the platform code
ECONNRESET. -/
def transportError : JsError := { message := "socket hang up", code := some "ECONNRESET" }

/-- A typed `ModuleCrcMismatch` error exactly as `ModuleDecompressor`
raises it. -/
def crcMismatchError : JsError :=
  FragmenterError.create .ModuleCrcMismatch "expected: aaaaaaaa, read: bbbbbbbb"

/-- A foreign error whose message merely mentions the marker substring. -/
def foreignMarkedError : JsError := { message := "mimic FragmenterError( oops" }

/-! ### Helper lemmas about the JavaScript string model -/

theorem isPrefixOf_append_self (l r : List Char) : l.isPrefixOf (l ++ r) = true := by
  induction l with
  | nil => simp [List.isPrefixOf]
  | cons a as ih => simp [List.isPrefixOf, ih]

theorem listContainsSeq_of_isPrefixOf {sub s : List Char} (h : sub.isPrefixOf s = true) :
    listContainsSeq sub s = true := by
  cases s with
  | nil =>
      cases sub with
      | nil => rfl
      | cons c t => simp [List.isPrefixOf] at h
  | cons c t => simp [listContainsSeq, h]

theorem damGo_attempts_pos (moduleName : String) (attempt : Nat → AttemptOutcome)
    (aborted : Bool) (fuel retryCount : Nat) :
    1 ≤ (damGo moduleName attempt aborted (fuel + 1) retryCount).attempts := by
  cases h : attempt retryCount with
  | success => simp [damGo, h]
  | raise e =>
      cases hd : catchDecision aborted e with
      | rethrow e2 => simp [damGo, h, hd]
      | retryAfterBackoff => simp [damGo, h, hd]

/-- C2 counterexample: an attempt failing with the typed, recoverable-per-spec
`ModuleCrcMismatch` FragmenterError is rethrown by the catch block of the
per-module retry loop, not retried. -/
theorem C2_counterexample_crc_mismatch_not_retried :
    catchDecision false crcMismatchError = .rethrow crcMismatchError
    ∧ catchDecision false crcMismatchError ≠ .retryAfterBackoff := by
  refine ⟨by decide, ?_⟩
  intro h
  simp [show catchDecision false crcMismatchError = .rethrow crcMismatchError from by decide] at h

/-- C2 (amended): the per-module retry loop of
`FragmenterInstaller.downloadAndInstallModule` rethrows immediately every
error that is already a typed FragmenterError (which is how
CorruptedZipFile, ModuleCrcMismatch, ModuleJsonInvalid and
DownloadStreamClosed arrive at the loop); only an error that is not a
typed FragmenterError and whose classified code is not in
`UnrecoverableErrors` (for example a raw transport error) is retried, and
such a first failure is followed by a backoff wait of 2 seconds and a
second attempt. -/
theorem C2_retry_policy :
    (∀ e : JsError, isFragmenterError e = true → ∀ aborted, catchDecision aborted e = .rethrow e)
    ∧ (∀ e : JsError, isFragmenterError e = false →
        UnrecoverableErrors.contains (jsErrorCode (FragmenterError.createFromError e)) = false →
        catchDecision false e = .retryAfterBackoff)
    ∧ (∀ (moduleName : String) (attempt : Nat → AttemptOutcome) (e : JsError),
        attempt 0 = .raise e → isFragmenterError e = false →
        UnrecoverableErrors.contains (jsErrorCode (FragmenterError.createFromError e)) = false →
        (downloadAndInstallModule moduleName attempt false).waits.head? = some 2
        ∧ 2 ≤ (downloadAndInstallModule moduleName attempt false).attempts) := by
  refine ⟨?_, ?_, ?_⟩
  · intro e h aborted
    simp [catchDecision, h]
  · intro e h hrec
    have hx : jsErrorCode (FragmenterError.createFromError e) ∉ UnrecoverableErrors := by
      simpa using hrec
    simp [catchDecision, h, hx]
  · intro moduleName attempt e h0 hfrag hrec
    have hx : jsErrorCode (FragmenterError.createFromError e) ∉ UnrecoverableErrors := by
      simpa using hrec
    have hdec : catchDecision false e = .retryAfterBackoff := by
      simp [catchDecision, hfrag, hx]
    have hrun : downloadAndInstallModule moduleName attempt false
        = { attempts := 1 + (damGo moduleName attempt false 4 1).attempts,
            waits := 2 :: (damGo moduleName attempt false 4 1).waits,
            outcome := (damGo moduleName attempt false 4 1).outcome } := by
      simp [downloadAndInstallModule, damGo, h0, hdec]
    rw [hrun]
    refine ⟨rfl, ?_⟩
    have := damGo_attempts_pos moduleName attempt false 3 1
    simpa using Nat.add_le_add_left this 1

/-- C2 witness: the amended policy at concrete errors, a typed CRC
mismatch (rethrown) and a raw ECONNRESET transport error (retried). -/
theorem C2_retry_policy_witness :
    catchDecision false crcMismatchError = .rethrow crcMismatchError
    ∧ catchDecision false transportError = .retryAfterBackoff := by
  exact ⟨C2_retry_policy.1 crcMismatchError (by decide) false,
    C2_retry_policy.2.1 transportError (by decide) (by decide)⟩

/-- C3: the retry loop guard of `downloadAndInstallModule` is the constant
`retryCount < 5`; with `maxModuleRetries` configured to 3 the resolved
option value is 3, yet a persistently failing module is attempted 5 times,
with waits 2, 4, 8, 16, 32 seconds, before the loop raises a
`MaxModuleRetries` FragmenterError. -/
theorem C3_retry_bound_ignores_option :
    resolvedMaxModuleRetries { maxModuleRetries := some 3 } = 3
    ∧ (downloadAndInstallModule "m" (fun _ => .raise transportError) false).attempts = 5
    ∧ (downloadAndInstallModule "m" (fun _ => .raise transportError) false).waits
        = [2, 4, 8, 16, 32]
    ∧ (downloadAndInstallModule "m" (fun _ => .raise transportError) false).outcome
        = .error (FragmenterError.create .MaxModuleRetries
            "max number of retries reached for module m")
    ∧ (5 : Nat) ≠ 3 := by
  exact ⟨rfl, by decide, by decide, rfl, by decide⟩

/-- C10: `FragmenterError.isFragmenterError` holds exactly when the message
contains the substring `FragmenterError(`; every error built by
`FragmenterError.create` or `FragmenterError.createFromError` satisfies
it; and any error satisfying it is rethrown unchanged by the per-module
retry loop of the orchestrator. -/
theorem C10_isFragmenterError_spec :
    (∀ e : JsError, isFragmenterError e = true ↔ jsIncludes e.message "FragmenterError(" = true)
    ∧ (∀ (c : FragmenterErrorCode) (m : String), isFragmenterError (FragmenterError.create c m) = true)
    ∧ (∀ e : JsError, isFragmenterError (FragmenterError.createFromError e) = true)
    ∧ (∀ e : JsError, isFragmenterError e = true →
        ∀ aborted, catchDecision aborted e = .rethrow e) := by
  refine ⟨fun e => Iff.rfl, ?_, ?_, ?_⟩
  · intro c m
    apply listContainsSeq_of_isPrefixOf
    have : (FragmenterError.create c m).message
        = "FragmenterError(" ++ (codeName c ++ ("): " ++ m)) := by
      simp [FragmenterError.create, String.append_assoc]
    rw [this, String.data_append]
    exact isPrefixOf_append_self _ _
  · intro e
    apply listContainsSeq_of_isPrefixOf
    have : (FragmenterError.createFromError e).message
        = "FragmenterError(" ++ (codeName (interpretNodeException e) ++ ("): " ++ e.message)) := by
      simp [FragmenterError.createFromError, String.append_assoc]
    rw [this, String.data_append]
    exact isPrefixOf_append_self _ _
  · intro e h aborted
    simp [catchDecision, h]

/-- C10 witness: the characterization applied to a concrete foreign error
carrying the marker substring: it is treated as a FragmenterError and
rethrown without retry. -/
theorem C10_isFragmenterError_spec_witness :
    isFragmenterError foreignMarkedError = true
    ∧ catchDecision false foreignMarkedError = .rethrow foreignMarkedError :=
  ⟨(C10_isFragmenterError_spec.1 foreignMarkedError).mpr (by decide),
    C10_isFragmenterError_spec.2.2.2 foreignMarkedError (by decide) false⟩

/-! ### Planner theorems -/

theorem exceptOk_exists {α : Type} {x : Except JsError α} (h : exceptOk x = true) :
    ∃ r, x = .ok r := by
  cases x with
  | ok r => exact ⟨r, rfl⟩
  | error e => simp [exceptOk] at h

theorem buildUpdateModules_ok (options : Option NeedsUpdateOptions)
    (l : List DistributionModule)
    (h : ∀ m ∈ l, m.kind ≠ ModuleKind.alternatives ∧ ∃ f, m.downloadFiles = [f]) :
    exceptOk (buildUpdateModules options l) = true := by
  induction l with
  | nil => rfl
  | cons m rest ih =>
      obtain ⟨hk, f, hf⟩ := h m (by simp)
      have hrest := ih (fun x hx => h x (by simp [hx]))
      obtain ⟨out, hout⟩ := exceptOk_exists hrest
      simp [buildUpdateModules, chooseAlternativeKey, hk, moduleFileToUse, hf, hout,
        Bind.bind, Except.bind, exceptOk]

theorem updatedForExisting_ok (distribution : DistributionManifest)
    (options : Option NeedsUpdateOptions) (added : List UpdateModule)
    (removed : List InstalledModule) (m : InstalledModule)
    (hD : ∀ dm ∈ distribution.modules,
      dm.kind ≠ ModuleKind.alternatives ∧ ∃ f, dm.downloadFiles = [f])
    (hm : m.kind ≠ ModuleKind.alternatives) :
    exceptOk (updatedForExisting distribution options added removed m) = true := by
  unfold updatedForExisting
  cases hfind : distribution.modules.find? (fun it => it.name == m.name) with
  | none => rfl
  | some dm =>
      obtain ⟨hk, f, hf⟩ := hD dm (List.mem_of_find?_eq_some hfind)
      have hbeq : (m.kind == ModuleKind.alternatives) = false := by simpa using hm
      simp [chooseAlternativeKey, hm, moduleFileToUse, hk, hf, hbeq,
        Bind.bind, Except.bind, exceptOk]

theorem collectUpdated_ok (distribution : DistributionManifest)
    (options : Option NeedsUpdateOptions) (added : List UpdateModule)
    (removed : List InstalledModule) (l : List InstalledModule)
    (hD : ∀ dm ∈ distribution.modules,
      dm.kind ≠ ModuleKind.alternatives ∧ ∃ f, dm.downloadFiles = [f])
    (hl : ∀ m ∈ l, m.kind ≠ ModuleKind.alternatives) :
    exceptOk (collectUpdated distribution options added removed l) = true := by
  induction l with
  | nil => rfl
  | cons m rest ih =>
      obtain ⟨r, hr⟩ := exceptOk_exists
        (updatedForExisting_ok distribution options added removed m hD (hl m (by simp)))
      obtain ⟨rs, hrs⟩ := exceptOk_exists (ih (fun x hx => hl x (by simp [hx])))
      simp [collectUpdated, hr, hrs, Bind.bind, Except.bind, exceptOk]

/-- C1: evaluation of the planner at an install whose alternatives module
`d` is installed from the chosen key `alt-a` at the very hash the
distribution still serves: the code classifies `d` as updated (forcing a
redownload), with nothing unchanged — against the specified
classification, which puts a module with equal key and equal hash in
unchanged. -/
theorem C1_equal_key_equal_hash_marked_updated :
    (needsUpdate altDistManifest (some altInstallManifest) (some altOptions)).toOption.map
      (fun i => (i.updatedModules.map (fun m => m.name),
                 i.unchangedModules.map (fun m => m.name),
                 i.needsUpdate))
      = some (["d"], [], true) := by decide

/-- C5 counterexample: when the caller supplies an alternative key
(`alt-b`) that matches no download file of the alternatives module,
planning fails with `InvalidParameters`, not with `InvalidOptions` as the
claim states. -/
theorem C5_counterexample_unmatched_key :
    errCodeOf (needsUpdate (mkSingletonDist altModSingle) none (some unmatchedKeyOptions))
      = some FragmenterErrorCode.InvalidParameters
    ∧ some FragmenterErrorCode.InvalidParameters ≠ some FragmenterErrorCode.InvalidOptions := by
  decide

/-- C5 (amended): for an alternatives module, a missing (or empty) chosen
key makes planning fail with `InvalidOptions`, while a supplied key that
matches none of the module download files makes it fail with
`InvalidParameters`. -/
theorem C5_alternatives_key_validation (m : DistributionModule) (opts : NeedsUpdateOptions)
    (hkind : m.kind = ModuleKind.alternatives) :
    (jsFalsy (chosenAlternativeFor (some opts) m.name) = true →
      errCodeOf (needsUpdate (mkSingletonDist m) none (some opts))
        = some FragmenterErrorCode.InvalidOptions)
    ∧ (∀ c : String, chosenAlternativeFor (some opts) m.name = some c →
        jsFalsy (some c) = false →
        m.downloadFiles.find? (fun it => it.key == c) = none →
        errCodeOf (needsUpdate (mkSingletonDist m) none (some opts))
          = some FragmenterErrorCode.InvalidParameters) := by
  constructor
  · intro hmiss
    simp [needsUpdate, mkSingletonDist, buildUpdateModules, chooseAlternativeKey, hkind, hmiss,
      errCodeOf, FragmenterError.create, Bind.bind, Except.bind]
  · intro c hc hne hfind
    simp [needsUpdate, mkSingletonDist, buildUpdateModules, chooseAlternativeKey, hkind, hc, hne,
      moduleFileToUse, hfind, errCodeOf, FragmenterError.create, Bind.bind, Except.bind]

/-- C5 witness: the amended classification at the concrete module `d`,
once with no chosen key (InvalidOptions) and once with the unmatched key
`alt-b` (InvalidParameters). -/
theorem C5_alternatives_key_validation_witness :
    errCodeOf (needsUpdate (mkSingletonDist altModSingle) none (some {}))
      = some FragmenterErrorCode.InvalidOptions
    ∧ errCodeOf (needsUpdate (mkSingletonDist altModSingle) none (some unmatchedKeyOptions))
      = some FragmenterErrorCode.InvalidParameters :=
  ⟨(C5_alternatives_key_validation altModSingle {} rfl).1 (by decide),
   (C5_alternatives_key_validation altModSingle unmatchedKeyOptions rfl).2 "alt-b"
     (by decide) (by decide) (by decide)⟩

/-- C9 counterexample: with the options parameter omitted and an install
manifest present, a distribution containing an alternatives module makes
the planner throw the `InvalidOptions` FragmenterError (a plain Error)
before the `forceFullInstallRatio` read is reached, so the call does not
throw a TypeError. -/
theorem C9_counterexample_alternatives_shadow_type_error :
    errNameOf (needsUpdate altDistManifest (some altInstallManifest) none) = some "Error"
    ∧ errCodeOf (needsUpdate altDistManifest (some altInstallManifest) none)
        = some FragmenterErrorCode.InvalidOptions
    ∧ (some "Error" : Option String) ≠ some "TypeError" := by decide

/-- C9 (amended): when every module of the distribution and of the
existing install is non-alternatives (and each distribution module
carries exactly one download file, so that no earlier error fires),
omitting the options while an install manifest exists always throws the
TypeError raised by reading `forceFullInstallRatio` on `undefined`; the
fresh-install path (no install manifest) returns successfully before that
read. -/
theorem C9_omitted_options_type_error (D : DistributionManifest) (I : InstallManifest)
    (hD : ∀ m ∈ D.modules, m.kind ≠ ModuleKind.alternatives ∧ ∃ f, m.downloadFiles = [f])
    (hI : ∀ m ∈ I.modules, m.kind ≠ ModuleKind.alternatives) :
    needsUpdate D (some I) none = .error ratioReadTypeError
    ∧ exceptOk (needsUpdate D none none) = true := by
  constructor
  · obtain ⟨A, hA⟩ := exceptOk_exists (buildUpdateModules_ok none
      (D.modules.filter (fun e => (I.modules.find? (fun f => e.name == f.name)).isNone))
      (fun m hm => hD m (List.mem_of_mem_filter hm)))
    obtain ⟨U, hU⟩ := exceptOk_exists (collectUpdated_ok D none A
      (I.modules.filter (fun e => (D.modules.find? (fun f => e.name == f.name)).isNone))
      I.modules hD hI)
    simp [needsUpdate, hA, hU, Bind.bind, Except.bind]
  · obtain ⟨A, hA⟩ := exceptOk_exists (buildUpdateModules_ok none D.modules hD)
    simp [needsUpdate, hA, Bind.bind, Except.bind, exceptOk]

theorem buildUpdateModules_names (options : Option NeedsUpdateOptions)
    (l : List DistributionModule) (out : List UpdateModule)
    (h : buildUpdateModules options l = .ok out) :
    out.map (fun u => u.name) = l.map (fun m => m.name) := by
  induction l generalizing out with
  | nil =>
      simp [buildUpdateModules] at h
      subst h
      rfl
  | cons m rest ih =>
      cases hc : chooseAlternativeKey options m.kind m.name with
      | error e => simp [buildUpdateModules, hc, Bind.bind, Except.bind] at h
      | ok k =>
        cases hf : moduleFileToUse m k with
        | error e => simp [buildUpdateModules, hc, hf, Bind.bind, Except.bind] at h
        | ok f =>
          cases hr : buildUpdateModules options rest with
          | error e => simp [buildUpdateModules, hc, hf, hr, Bind.bind, Except.bind] at h
          | ok rs =>
              simp [buildUpdateModules, hc, hf, hr, Bind.bind, Except.bind] at h
              subst h
              simp [ih rs hr]

theorem updatedForExisting_name (distribution : DistributionManifest)
    (options : Option NeedsUpdateOptions) (added : List UpdateModule)
    (removed : List InstalledModule) (m : InstalledModule) (u : UpdateModule)
    (h : updatedForExisting distribution options added removed m = .ok (some u)) :
    u.name = m.name := by
  unfold updatedForExisting at h
  cases hfind : distribution.modules.find? (fun it => it.name == m.name) with
  | none =>
      rw [hfind] at h
      simp at h
  | some dm =>
      rw [hfind] at h
      cases hc : chooseAlternativeKey options m.kind m.name with
      | error e => simp [hc, Bind.bind, Except.bind] at h
      | ok k =>
        cases hf : moduleFileToUse dm k with
        | error e => simp [hc, hf, Bind.bind, Except.bind] at h
        | ok f =>
            simp [hc, hf, Bind.bind, Except.bind] at h
            split at h
            · rw [Except.ok.injEq, Option.some.injEq] at h
              subst h
              rfl
            · split at h
              · rw [Except.ok.injEq, Option.some.injEq] at h
                subst h
                rfl
              · simp at h

theorem collectUpdated_names (distribution : DistributionManifest)
    (options : Option NeedsUpdateOptions) (added : List UpdateModule)
    (removed : List InstalledModule) (l : List InstalledModule) (out : List UpdateModule)
    (h : collectUpdated distribution options added removed l = .ok out) :
    out.map (fun u => u.name)
      = (l.filter (updatedFlag distribution options added removed)).map (fun m => m.name) := by
  induction l generalizing out with
  | nil =>
      simp [collectUpdated] at h
      subst h
      rfl
  | cons m rest ih =>
      cases hr : updatedForExisting distribution options added removed m with
      | error e => simp [collectUpdated, hr, Bind.bind, Except.bind] at h
      | ok r =>
        cases hrs : collectUpdated distribution options added removed rest with
        | error e => simp [collectUpdated, hr, hrs, Bind.bind, Except.bind] at h
        | ok rs =>
            simp [collectUpdated, hr, hrs, Bind.bind, Except.bind] at h
            subst h
            cases r with
            | none => simp [updatedFlag, hr, ih rs hrs]
            | some u =>
                simp [updatedFlag, hr, ih rs hrs,
                  updatedForExisting_name distribution options added removed m u hr]

theorem updatedFlag_name_in_dist (distribution : DistributionManifest)
    (options : Option NeedsUpdateOptions) (added : List UpdateModule)
    (removed : List InstalledModule) (m : InstalledModule)
    (h : updatedFlag distribution options added removed m = true) :
    m.name ∈ distribution.modules.map (fun d => d.name) := by
  unfold updatedFlag updatedForExisting at h
  cases hfind : distribution.modules.find? (fun it => it.name == m.name) with
  | none =>
      rw [hfind] at h
      simp at h
  | some dm =>
      have hmem := List.mem_of_find?_eq_some hfind
      have hp := List.find?_some hfind
      rw [List.mem_map]
      exact ⟨dm, hmem, by simpa using hp⟩

theorem mem_added_names (D : DistributionManifest) (I : InstallManifest)
    (options : Option NeedsUpdateOptions) (A : List UpdateModule)
    (hA : buildUpdateModules options
      (D.modules.filter (fun e => (I.modules.find? (fun f => e.name == f.name)).isNone))
      = .ok A) (n : String) :
    n ∈ A.map (fun u => u.name)
      ↔ (n ∈ D.modules.map (fun m => m.name) ∧ n ∉ I.modules.map (fun m => m.name)) := by
  rw [buildUpdateModules_names _ _ _ hA]
  simp only [List.mem_map, List.mem_filter, Option.isNone_iff_eq_none, List.find?_eq_none,
    beq_iff_eq]
  constructor
  · rintro ⟨e, ⟨heD, hfil⟩, rfl⟩
    exact ⟨⟨e, heD, rfl⟩, fun ⟨f, hfI, hfn⟩ => hfil f hfI hfn.symm⟩
  · rintro ⟨⟨e, heD, rfl⟩, hni⟩
    exact ⟨e, ⟨heD, fun f hfI hfn => hni ⟨f, hfI, hfn.symm⟩⟩, rfl⟩

theorem mem_removed_names (D : DistributionManifest) (I : InstallManifest) (n : String) :
    n ∈ (I.modules.filter
          (fun e => (D.modules.find? (fun f => e.name == f.name)).isNone)).map (fun m => m.name)
      ↔ (n ∈ I.modules.map (fun m => m.name) ∧ n ∉ D.modules.map (fun m => m.name)) := by
  simp only [List.mem_map, List.mem_filter, Option.isNone_iff_eq_none, List.find?_eq_none,
    beq_iff_eq]
  constructor
  · rintro ⟨e, ⟨heI, hfil⟩, rfl⟩
    exact ⟨⟨e, heI, rfl⟩, fun ⟨f, hfD, hfn⟩ => hfil f hfD hfn.symm⟩
  · rintro ⟨⟨e, heI, rfl⟩, hnd⟩
    exact ⟨e, ⟨heI, fun f hfD hfn => hnd ⟨f, hfD, hfn.symm⟩⟩, rfl⟩

theorem mem_updated_names_sub (D : DistributionManifest) (I : InstallManifest)
    (options : Option NeedsUpdateOptions) (A : List UpdateModule)
    (R : List InstalledModule) (n : String)
    (h : n ∈ (I.modules.filter (updatedFlag D options A R)).map (fun m => m.name)) :
    n ∈ I.modules.map (fun m => m.name) ∧ n ∈ D.modules.map (fun m => m.name) := by
  rw [List.mem_map] at h
  obtain ⟨m, hm, rfl⟩ := h
  rw [List.mem_filter] at hm
  refine ⟨List.mem_map.mpr ⟨m, hm.1, rfl⟩, ?_⟩
  exact updatedFlag_name_in_dist D options A R m hm.2

theorem mem_unchanged_names (Im : List InstalledModule) (A : List UpdateModule)
    (R : List InstalledModule) (U : List UpdateModule) (n : String) :
    n ∈ (Im.filter (fun module =>
            !(A.any (fun it => it.name == module.name))
            && !(R.any (fun it => it.name == module.name))
            && !(U.any (fun it => it.name == module.name)))).map (fun m => m.name)
      ↔ (n ∈ Im.map (fun m => m.name) ∧ n ∉ A.map (fun u => u.name)
          ∧ n ∉ R.map (fun m => m.name) ∧ n ∉ U.map (fun u => u.name)) := by
  simp only [List.mem_map, List.mem_filter, Bool.and_eq_true, Bool.not_eq_true',
    List.any_eq_false, beq_iff_eq]
  constructor
  · rintro ⟨m, ⟨hmI, ⟨hA, hR⟩, hU⟩, rfl⟩
    exact ⟨⟨m, hmI, rfl⟩, fun ⟨a, haA, han⟩ => hA a haA han,
      fun ⟨r, hrR, hrn⟩ => hR r hrR hrn, fun ⟨u, huU, hun⟩ => hU u huU hun⟩
  · rintro ⟨⟨m, hmI, rfl⟩, hA, hR, hU⟩
    exact ⟨m, ⟨hmI, ⟨fun a haA han => hA ⟨a, haA, han⟩,
      fun r hrR hrn => hR ⟨r, hrR, hrn⟩⟩, fun u huU hun => hU ⟨u, huU, hun⟩⟩, rfl⟩

/-- C7: for a planner run over a distribution manifest and an existing
install manifest with unique module names that returns a plan, the name
lists of added, removed, updated and unchanged contain no duplicate and
their union is exactly the union of the module names of the two
manifests: every such name is classified exactly once. -/
theorem C7_classification_partition (D : DistributionManifest) (I : InstallManifest)
    (opts : Option NeedsUpdateOptions) (info : UpdateInfo)
    (hD : (D.modules.map (fun m => m.name)).Nodup)
    (hI : (I.modules.map (fun m => m.name)).Nodup)
    (hok : needsUpdate D (some I) opts = .ok info) :
    ((info.addedModules.map (fun u => u.name))
      ++ (info.removedModules.map (fun m => m.name))
      ++ (info.updatedModules.map (fun u => u.name))
      ++ (info.unchangedModules.map (fun m => m.name))).Nodup
    ∧ ∀ n : String,
        (n ∈ (info.addedModules.map (fun u => u.name))
            ++ (info.removedModules.map (fun m => m.name))
            ++ (info.updatedModules.map (fun u => u.name))
            ++ (info.unchangedModules.map (fun m => m.name))
          ↔ (n ∈ D.modules.map (fun m => m.name) ∨ n ∈ I.modules.map (fun m => m.name))) := by
  cases hA : buildUpdateModules opts
      (D.modules.filter (fun e => (I.modules.find? (fun f => e.name == f.name)).isNone)) with
  | error e => simp [needsUpdate, hA, Bind.bind, Except.bind] at hok
  | ok A =>
  cases hU : collectUpdated D opts A
      (I.modules.filter (fun e => (D.modules.find? (fun f => e.name == f.name)).isNone))
      I.modules with
  | error e => simp [needsUpdate, hA, hU, Bind.bind, Except.bind] at hok
  | ok U =>
  cases opts with
  | none => simp [needsUpdate, hA, hU, Bind.bind, Except.bind] at hok
  | some o =>
    simp only [needsUpdate, hA, hU, Bind.bind, Except.bind] at hok
    rw [Except.ok.injEq] at hok
    subst hok
    simp only
    have hUnames := collectUpdated_names D (some o) A
      (I.modules.filter (fun e => (D.modules.find? (fun f => e.name == f.name)).isNone))
      I.modules U hU
    have hAdd := mem_added_names D I (some o) A hA
    have hRem := mem_removed_names D I
    have hUpd : ∀ n, n ∈ U.map (fun u => u.name) →
        n ∈ I.modules.map (fun m => m.name) ∧ n ∈ D.modules.map (fun m => m.name) := by
      intro n hn
      rw [hUnames] at hn
      exact mem_updated_names_sub D I (some o) A _ n hn
    have hUnch := mem_unchanged_names I.modules A
      (I.modules.filter (fun e => (D.modules.find? (fun f => e.name == f.name)).isNone)) U
    -- Nodup of each block
    have hAnodup : (A.map (fun u => u.name)).Nodup := by
      rw [buildUpdateModules_names _ _ _ hA]
      exact ((List.filter_sublist _).map _).nodup hD
    have hRnodup : ((I.modules.filter
        (fun e => (D.modules.find? (fun f => e.name == f.name)).isNone)).map
          (fun m => m.name)).Nodup :=
      ((List.filter_sublist _).map _).nodup hI
    have hUnodup : (U.map (fun u => u.name)).Nodup := by
      rw [hUnames]
      exact ((List.filter_sublist _).map _).nodup hI
    have hNnodup : ((I.modules.filter (fun module =>
        !(A.any (fun it => it.name == module.name))
        && !((I.modules.filter
              (fun e => (D.modules.find? (fun f => e.name == f.name)).isNone)).any
            (fun it => it.name == module.name))
        && !(U.any (fun it => it.name == module.name)))).map (fun m => m.name)).Nodup :=
      ((List.filter_sublist _).map _).nodup hI
    constructor
    · rw [List.nodup_append, List.nodup_append, List.nodup_append]
      refine ⟨⟨⟨hAnodup, hRnodup, ?_⟩, hUnodup, ?_⟩, hNnodup, ?_⟩
      · -- added disjoint from removed
        intro n hnA hnR
        exact ((hAdd n).mp hnA).2 ((hRem n).mp hnR).1
      · -- added ++ removed disjoint from updated
        intro n hn hnU
        rcases List.mem_append.mp hn with hnA | hnR
        · exact ((hAdd n).mp hnA).2 (hUpd n hnU).1
        · exact ((hRem n).mp hnR).2 (hUpd n hnU).2
      · -- added ++ removed ++ updated disjoint from unchanged
        intro n hn hnN
        rw [hUnch] at hnN
        rcases List.mem_append.mp hn with hn2 | hnU
        · rcases List.mem_append.mp hn2 with hnA | hnR
          · exact hnN.2.1 hnA
          · exact hnN.2.2.1 hnR
        · exact hnN.2.2.2 hnU
    · intro n
      simp only [List.mem_append]
      constructor
      · rintro (((hnA | hnR) | hnU) | hnN)
        · exact Or.inl ((hAdd n).mp hnA).1
        · exact Or.inr ((hRem n).mp hnR).1
        · exact Or.inr (hUpd n hnU).1
        · exact Or.inr ((hUnch n).mp hnN).1
      · rintro (hnD | hnI)
        · by_cases hni : n ∈ I.modules.map (fun m => m.name)
          · -- in both manifests: updated or unchanged
            by_cases hnU : n ∈ U.map (fun u => u.name)
            · exact Or.inl (Or.inr hnU)
            · refine Or.inr ((hUnch n).mpr ⟨hni, ?_, ?_, hnU⟩)
              · intro hnA
                exact ((hAdd n).mp hnA).2 hni
              · intro hnR
                exact ((hRem n).mp hnR).2 hnD
          · exact Or.inl (Or.inl (Or.inl ((hAdd n).mpr ⟨hnD, hni⟩)))
        · by_cases hnd : n ∈ D.modules.map (fun m => m.name)
          · by_cases hnU : n ∈ U.map (fun u => u.name)
            · exact Or.inl (Or.inr hnU)
            · refine Or.inr ((hUnch n).mpr ⟨hnI, ?_, ?_, hnU⟩)
              · intro hnA
                exact ((hAdd n).mp hnA).2 hnI
              · intro hnR
                exact ((hRem n).mp hnR).2 hnd
          · exact Or.inl (Or.inl (Or.inr ((hRem n).mpr ⟨hnI, hnd⟩)))

/-- C9 witness: the amended statement at a concrete simple-module
distribution and install. -/
theorem C9_omitted_options_type_error_witness :
    needsUpdate simpleDistManifest (some simpleInstallManifest) none
      = .error ratioReadTypeError
    ∧ exceptOk (needsUpdate simpleDistManifest none none) = true :=
  C9_omitted_options_type_error simpleDistManifest simpleInstallManifest
    (by
      intro m hm
      simp [simpleDistManifest] at hm
      subst hm
      exact ⟨by decide, ⟨simpleFileA, rfl⟩⟩)
    (by
      intro m hm
      simp [simpleInstallManifest] at hm
      subst hm
      decide)

/-- C7 witness: the partition at the concrete up-to-date simple install
(everything lands in unchanged), with the membership property read off at
the name `a`. -/
theorem C7_classification_partition_witness :
    ((simpleNoChangeInfo.addedModules.map (fun u => u.name))
      ++ (simpleNoChangeInfo.removedModules.map (fun m => m.name))
      ++ (simpleNoChangeInfo.updatedModules.map (fun u => u.name))
      ++ (simpleNoChangeInfo.unchangedModules.map (fun m => m.name))).Nodup
    ∧ ("a" ∈ (simpleNoChangeInfo.addedModules.map (fun u => u.name))
          ++ (simpleNoChangeInfo.removedModules.map (fun m => m.name))
          ++ (simpleNoChangeInfo.updatedModules.map (fun u => u.name))
          ++ (simpleNoChangeInfo.unchangedModules.map (fun m => m.name))
        ↔ ("a" ∈ simpleDistManifest.modules.map (fun m => m.name)
            ∨ "a" ∈ simpleInstallManifest.modules.map (fun m => m.name))) := by
  have h := C7_classification_partition simpleDistManifest simpleInstallManifest
    (some {}) simpleNoChangeInfo (by decide) (by decide) (by rfl)
  exact ⟨h.1, h.2 "a"⟩

/-! ### Decompressor theorems -/

/-- C4 counterexample: a missing module.json makes
`ModuleDecompressor.decompress` fail with the `FileNotFound`
classification of the ENOENT read error, not with `ModuleJsonInvalid` as
the claim states. -/
theorem C4_counterexample_missing_module_json :
    errCodeOf (decompressCheck "h" ModuleJsonReadOutcome.missing)
      = some FragmenterErrorCode.FileNotFound
    ∧ some FragmenterErrorCode.FileNotFound ≠ some FragmenterErrorCode.ModuleJsonInvalid := by
  decide

/-- C4 (amended): after extraction, a missing module.json fails with
`FileNotFound` (the classified ENOENT); an unparseable one fails with
`Unknown` (the classified SyntaxError); one that parses without a hash
raises a TypeError while the mismatch message is built; one whose hash
differs from the expected module hash fails with `ModuleCrcMismatch`; a
matching hash succeeds. -/
theorem C4_decompress_validation (expectedHash : String) :
    errCodeOf (decompressCheck expectedHash .missing) = some FragmenterErrorCode.FileNotFound
    ∧ (∀ msg : String, CorruptedZipMessages.contains (jsTrim msg) = false →
        (∀ pc ∈ NodePlatformCodes, msg ≠ pc) →
        errCodeOf (decompressCheck expectedHash (.unparseable msg))
          = some FragmenterErrorCode.Unknown)
    ∧ errNameOf (decompressCheck expectedHash (.parsed none)) = some "TypeError"
    ∧ (∀ actual : String, actual ≠ expectedHash →
        errCodeOf (decompressCheck expectedHash (.parsed (some actual)))
          = some FragmenterErrorCode.ModuleCrcMismatch)
    ∧ decompressCheck expectedHash (.parsed (some expectedHash)) = .ok true := by
  refine ⟨by rfl, ?_, by rfl, ?_, ?_⟩
  · intro msg h1 h2
    have e1 : msg ≠ "EACCES" := h2 _ (by decide)
    have e2 : msg ≠ "EPERM" := h2 _ (by decide)
    have e3 : msg ≠ "EBUSY" := h2 _ (by decide)
    have e4 : msg ≠ "ENOSPC" := h2 _ (by decide)
    have e5 : msg ≠ "ENOENT" := h2 _ (by decide)
    have e6 : msg ≠ "ENOTEMPTY" := h2 _ (by decide)
    have e7 : msg ≠ "ENOTDIR" := h2 _ (by decide)
    have e8 : msg ≠ "ECONNRESET" := h2 _ (by decide)
    have e9 : msg ≠ "ENOTFOUND" := h2 _ (by decide)
    have h1x : jsTrim msg ∉ CorruptedZipMessages := by simpa using h1
    simp [decompressCheck, FragmenterError.createFromError, interpretNodeException,
      errCodeOf, h1x, e1, e2, e3, e4, e5, e6, e7, e8, e9]
  · intro actual hne
    simp [decompressCheck, errCodeOf, FragmenterError.create, bne_iff_ne, hne]
  · simp [decompressCheck, bne_self_eq_false]

/-- C4 witness: the four classifications and the success case at concrete
module.json outcomes. -/
theorem C4_decompress_validation_witness :
    errCodeOf (decompressCheck "deadbeef" ModuleJsonReadOutcome.missing)
      = some FragmenterErrorCode.FileNotFound
    ∧ errCodeOf (decompressCheck "deadbeef"
        (ModuleJsonReadOutcome.unparseable "Unexpected token u in JSON at position 0"))
      = some FragmenterErrorCode.Unknown
    ∧ errNameOf (decompressCheck "deadbeef" (ModuleJsonReadOutcome.parsed none))
      = some "TypeError"
    ∧ errCodeOf (decompressCheck "deadbeef" (ModuleJsonReadOutcome.parsed (some "cafe")))
      = some FragmenterErrorCode.ModuleCrcMismatch
    ∧ decompressCheck "deadbeef" (ModuleJsonReadOutcome.parsed (some "deadbeef"))
      = .ok true := by
  have h := C4_decompress_validation "deadbeef"
  exact ⟨h.1, h.2.1 _ (by decide) (by decide), h.2.2.1, h.2.2.2.1 "cafe" (by decide),
    h.2.2.2.2⟩

/-! ### File downloader theorems -/

theorem fdRangedLoop_error_none (attempts : Nat → StreamAttemptResult) (fileSize : Nat)
    (hnr : ∀ i, (attempts i).unrecoverableAfter = false) :
    ∀ (fuel retryCount : Nat) (chunks c : List Nat) (e : Option JsError) (w : List Nat),
      fdRangedLoop attempts false fileSize fuel retryCount chunks = .ok (c, e, w) →
      e = none := by
  intro fuel
  induction fuel with
  | zero =>
      intro rc chunks c e w h
      simp [fdRangedLoop] at h
      exact h.2.1.symm
  | succ fuel ih =>
      intro rc chunks c e w h
      simp only [fdRangedLoop, hnr, if_false, Bool.false_eq_true] at h
      split at h
      · rw [Except.ok.injEq] at h
        exact (congrArg (fun t => t.2.1) h).symm
      · cases hrec : fdRangedLoop attempts false fileSize fuel (rc + 1)
            (chunks ++ (attempts rc).buffers) with
        | error e2 =>
            rw [hrec] at h
            simp at h
        | ok t =>
            obtain ⟨c2, e2, w2⟩ := t
            rw [hrec] at h
            rw [Except.ok.injEq] at h
            have he : e = e2 := (congrArg (fun t => t.2.1) h).symm
            rw [he]
            exact ih (rc + 1) (chunks ++ (attempts rc).buffers) c2 e2 w2 hrec

/-- C6 counterexample: over a stream delivering one byte per attempt with
an expected size of 10, the ranged download ends short (5 of 10 bytes)
with a `MaxModuleRetries` error, yet the accumulated buffers are written
to the destination all the same — against only-on-success writing. -/
theorem C6_counterexample_short_download_still_written :
    (fileDownloadRanged droppingStream false 10).toOption.map
        (fun r => (r.bytesDownloaded, r.error.bind (fun e => e.fragCode), r.writtenChunks))
      = some (5, some FragmenterErrorCode.MaxModuleRetries, [1, 1, 1, 1, 1])
    ∧ 5 < 10 ∧ ([1, 1, 1, 1, 1] : List Nat) ≠ [] := by decide

/-- C6 (amended): on every successful return of the ranged download, the
reported byte count is the total of the buffers written to the
destination (the write happens whether or not the expected size was
reached); a byte count below the expected size always carries an error,
which is the `MaxModuleRetries` error whenever no stream attempt recorded
an unrecoverable error; and a result without error means all expected
bytes were received. -/
theorem C6_download_result (attempts : Nat → StreamAttemptResult) (fileSize : Nat)
    (r : FileDownloadResult)
    (hok : fileDownloadRanged attempts false fileSize = .ok r) :
    r.bytesDownloaded = loadedBytesOf r.writtenChunks
    ∧ (r.bytesDownloaded < fileSize → r.error.isSome = true)
    ∧ (r.error = none → fileSize ≤ r.bytesDownloaded)
    ∧ ((r.bytesDownloaded < fileSize ∧ ∀ i, (attempts i).unrecoverableAfter = false) →
        r.error = some downloadIncompleteError) := by
  cases hl : fdRangedLoop attempts false fileSize 5 0 [] with
  | error e => simp [fileDownloadRanged, hl] at hok
  | ok t =>
      obtain ⟨chunks, errSoFar, waits⟩ := t
      simp only [fileDownloadRanged, hl] at hok
      rw [Except.ok.injEq] at hok
      subst hok
      refine ⟨rfl, ?_, ?_, ?_⟩
      · intro hlt
        simp only at hlt ⊢
        rw [if_pos hlt]
        cases errSoFar <;> simp
      · intro hnone
        simp only at hnone ⊢
        by_cases hlt : loadedBytesOf chunks < fileSize
        · rw [if_pos hlt] at hnone
          cases errSoFar <;> simp at hnone
        · omega
      · rintro ⟨hlt, hnr⟩
        have he := fdRangedLoop_error_none attempts fileSize hnr 5 0 [] chunks errSoFar waits hl
        subst he
        simp only at hlt ⊢
        rw [if_pos hlt]

/-- C6 witness: the amended statement read off at the concrete stalling
stream: 5 bytes are reported, equal to the written total, and the error
is the `MaxModuleRetries` error. -/
theorem C6_download_result_witness :
    droppingResult.bytesDownloaded = loadedBytesOf droppingResult.writtenChunks
    ∧ droppingResult.error = some downloadIncompleteError := by
  have h := C6_download_result droppingStream 10 droppingResult (by rfl)
  exact ⟨h.1, h.2.2.2 ⟨by decide, fun i => rfl⟩⟩

/-! ### Split-part download and merge theorems -/

theorem downloadPartsFrom_closed (baseUrl moduleName : String)
    (file : DistributionModuleFile) (destDir : String) (retryCount : Nat)
    (fullModuleHash : String) :
    ∀ (fuel i : Nat), file.splitFileCount ≤ i + fuel →
      downloadPartsFrom baseUrl moduleName file destDir retryCount fullModuleHash fuel i
        = (List.range' i (file.splitFileCount - i)).map
            (partRequest baseUrl moduleName file destDir retryCount fullModuleHash) := by
  intro fuel
  induction fuel with
  | zero =>
      intro i hi
      have h0 : file.splitFileCount - i = 0 := by omega
      simp [downloadPartsFrom, h0]
  | succ fuel ih =>
      intro i hi
      by_cases hlt : i < file.splitFileCount
      · have h1 : file.splitFileCount - i = (file.splitFileCount - (i + 1)) + 1 := by omega
        rw [h1]
        simp only [downloadPartsFrom, if_pos hlt, List.range']
        rw [ih (i + 1) (by omega)]
        simp
      · have h0 : file.splitFileCount - i = 0 := by omega
        simp [downloadPartsFrom, hlt, h0]

theorem mergePartsFrom_closed (moduleName destDir : String)
    (file : DistributionModuleFile) (present : String → Bool)
    (hpres : ∀ p, present p = true) :
    ∀ (fuel i : Nat), file.splitFileCount ≤ i + fuel →
      mergePartsFrom moduleName destDir file present fuel i
        = some (((List.range' i (file.splitFileCount - i)).map (fun j =>
            [FsEvent.appendFile
               (pathJoin destDir
                 (moduleName ++ ".zip.fg-tmp" ++ partIndexString file.splitFileCount j))
               (pathJoin destDir (moduleName ++ ".zip")),
             FsEvent.rmFile
               (pathJoin destDir
                 (moduleName ++ ".zip.fg-tmp" ++ partIndexString file.splitFileCount j))])).flatten) := by
  intro fuel
  induction fuel with
  | zero =>
      intro i hi
      have h0 : file.splitFileCount - i = 0 := by omega
      simp [mergePartsFrom, h0]
  | succ fuel ih =>
      intro i hi
      by_cases hlt : i < file.splitFileCount
      · have h1 : file.splitFileCount - i = (file.splitFileCount - (i + 1)) + 1 := by omega
        rw [h1]
        simp only [mergePartsFrom, if_pos hlt, hpres, if_true, List.range']
        rw [ih (i + 1) (by omega)]
        simp
      · have h0 : file.splitFileCount - i = 0 := by omega
        simp [mergePartsFrom, hlt, h0]

/-- C8: for a module file split into more than one part, the parts are
requested strictly in ascending index order; part `i` is requested at the
relative path `<file.path>.sf-part<NN>` with `<NN>` the 1-based index
zero-padded to the decimal-digit count of the part count; each part is
stored as `<moduleName>.zip.fg-tmp<NN>` in the destination directory; and
with all parts present the merge appends each part to `<moduleName>.zip`
and deletes it immediately afterwards, in ascending index order. -/
theorem C8_split_parts_protocol (baseUrl moduleName destDir fullModuleHash : String)
    (file : DistributionModuleFile) (retryCount : Nat) (present : String → Bool)
    (_hN : 1 < file.splitFileCount) (hpres : ∀ p, present p = true) :
    downloadModuleFileParts baseUrl moduleName file destDir retryCount fullModuleHash
      = (List.range file.splitFileCount).map
          (partRequest baseUrl moduleName file destDir retryCount fullModuleHash)
    ∧ (∀ i : Nat,
        (partRequest baseUrl moduleName file destDir retryCount fullModuleHash i).partFilePath
          = file.path ++ (".sf-part"
              ++ jsPadStart (Nat.repr (i + 1)) (Nat.repr file.splitFileCount).length '0'))
    ∧ (∀ i : Nat,
        (partRequest baseUrl moduleName file destDir retryCount fullModuleHash i).tempFilePath
          = pathJoin destDir (moduleName ++ ".zip.fg-tmp"
              ++ jsPadStart (Nat.repr (i + 1)) (Nat.repr file.splitFileCount).length '0'))
    ∧ mergeModuleFileParts moduleName destDir file present
        = some (((List.range file.splitFileCount).map (fun j =>
            [FsEvent.appendFile
               (pathJoin destDir
                 (moduleName ++ ".zip.fg-tmp" ++ partIndexString file.splitFileCount j))
               (pathJoin destDir (moduleName ++ ".zip")),
             FsEvent.rmFile
               (pathJoin destDir
                 (moduleName ++ ".zip.fg-tmp" ++ partIndexString file.splitFileCount j))])).flatten) := by
  refine ⟨?_, ?_, ?_, ?_⟩
  · rw [downloadModuleFileParts,
      downloadPartsFrom_closed baseUrl moduleName file destDir retryCount fullModuleHash
        file.splitFileCount 0 (by omega)]
    simp [List.range_eq_range']
  · intro i
    show file.path ++ "." ++ ("sf-part" ++ partIndexString file.splitFileCount i) = _
    rw [String.append_assoc, ← String.append_assoc "." "sf-part"]
    rfl
  · intro i
    rfl
  · rw [mergeModuleFileParts,
      mergePartsFrom_closed moduleName destDir file present hpres
        file.splitFileCount 0 (by omega)]
    simp [List.range_eq_range']

/-- C8 witness: the protocol at a concrete three-part file. -/
theorem C8_split_parts_protocol_witness :
    downloadModuleFileParts "http://cdn" "big" bigFile "tmp" 0 "ffeeddcc"
      = (List.range bigFile.splitFileCount).map
          (partRequest "http://cdn" "big" bigFile "tmp" 0 "ffeeddcc")
    ∧ (partRequest "http://cdn" "big" bigFile "tmp" 0 "ffeeddcc" 0).partFilePath
        = "big.zip" ++ (".sf-part" ++ jsPadStart (Nat.repr 1) (Nat.repr 3).length '0')
    ∧ (partRequest "http://cdn" "big" bigFile "tmp" 0 "ffeeddcc" 2).tempFilePath
        = pathJoin "tmp" ("big" ++ ".zip.fg-tmp"
            ++ jsPadStart (Nat.repr 3) (Nat.repr 3).length '0')
    ∧ mergeModuleFileParts "big" "tmp" bigFile (fun _ => true)
        = some (((List.range bigFile.splitFileCount).map (fun j =>
            [FsEvent.appendFile
               (pathJoin "tmp" ("big" ++ ".zip.fg-tmp" ++ partIndexString bigFile.splitFileCount j))
               (pathJoin "tmp" ("big" ++ ".zip")),
             FsEvent.rmFile
               (pathJoin "tmp"
                 ("big" ++ ".zip.fg-tmp" ++ partIndexString bigFile.splitFileCount j))])).flatten) := by
  have h := C8_split_parts_protocol "http://cdn" "big" "tmp" "ffeeddcc" bigFile 0
    (fun _ => true) (by decide) (fun p => rfl)
  exact ⟨h.1, h.2.1 0, h.2.2.1 2, h.2.2.2⟩

end Fragmenter
